import Mathlib

/-!
Verification of `make_scripts/move_localization.py`, a script that moves
(and optionally renames) Fluent localization entries from a source `.ftl`
file to a destination `.ftl` file across every language subdirectory of a
base directory.

The embedding models file contents at the parsed level: a file's contents
is the ordered list of Fluent AST entries that `FluentParser.parse` would
produce, and writing a file stores the entry list that would be serialized.
The Fluent parser/serializer library is an external collaborator, so its
text-level round-trip is out of scope; everything the script itself does to
entry lists, directory states, printed messages and file writes is modelled
faithfully from the Python source.
-/

namespace MoveLoc

/-- One entry of a parsed Fluent resource, mirroring the `fluent.syntax.ast`
node kinds the script distinguishes: `Message` and `Term` carry an
identifier name (`entry.id.name`) and opaque body content; `comment` stands
for the comment-like node kinds; `Junk(content=...)` carries raw text. -/
inductive Entry where
  | message (name : String) (content : String)
  | term (name : String) (content : String)
  | comment (content : String)
  | junk (content : String)
deriving DecidableEq, Repr

/-- `isinstance(entry, ast.Junk)`. -/
def Entry.isJunk : Entry → Bool
  | .junk _ => true
  | _ => false

/-- The key of an entry: `entry.id.name` when `isinstance(entry,
(ast.Message, ast.Term))`, absent otherwise. -/
def Entry.keyName : Entry → Option String
  | .message n _ => some n
  | .term n _ => some n
  | _ => none

/-- Python `s.replace(pat, dst, 1)` on lists of characters: replace the
first (leftmost) occurrence of `pat` by `dst`; if `pat` never occurs the
list is unchanged.  An empty `pat` matches at position 0. -/
def replaceFirstList (pat dst : List Char) : List Char → List Char
  | [] => if pat.isPrefixOf ([] : List Char) then dst else []
  | c :: rest =>
    if pat.isPrefixOf (c :: rest) then dst ++ (c :: rest).drop pat.length
    else c :: replaceFirstList pat dst rest

/-- Python `old_id.replace(source_pre, destination_pre, 1)` (line 70). -/
def replaceFirst (pat dst s : String) : String :=
  String.mk (replaceFirstList pat.data dst.data s.data)

/-- Whether `pat` occurs as a contiguous substring (Python `pat in s` for
lists of characters). -/
def containsSubList (pat : List Char) : List Char → Bool
  | [] => pat.isPrefixOf ([] : List Char)
  | c :: rest => pat.isPrefixOf (c :: rest) || containsSubList pat rest

/-- Whether `pat` occurs as a contiguous substring of `s`. -/
def containsSub (pat s : String) : Bool :=
  containsSubList pat.data s.data

/-- Index of the last `.` in a character list, if any. -/
def lastDotIdx : List Char → Option Nat
  | [] => none
  | c :: rest =>
    match lastDotIdx rest with
    | some i => some (i + 1)
    | none => if c = '.' then some 0 else none

/-- `os.path.splitext(s)[0]` for a plain filename (no directory
separators), as in lines 28-29: split at the last `.`, except that a
filename consisting only of leading dots before that `.` is not split
(CPython `genericpath._splitext`). -/
def splitextRoot (s : String) : String :=
  match lastDotIdx s.data with
  | none => s
  | some d =>
    if (s.data.take d).any (fun c => c ≠ '.') then String.mk (s.data.take d) else s

/-- Line 66-67: the entry qualifies for moving iff it is a `Message` or
`Term` whose `id.name` is in `keys_to_move`.  The Python key set is
modelled as a list whose membership is what matters. -/
def isMovedEntry (keys : List String) (e : Entry) : Bool :=
  match e.keyName with
  | some n => keys.contains n
  | none => false

/-- Lines 69-71: rewrite the entry's key by replacing the first occurrence
of the source-filename-derived string with the destination one. -/
def renameEntry (srcPre dstPre : String) : Entry → Entry
  | .message n c => .message (replaceFirst srcPre dstPre n) c
  | .term n c => .term (replaceFirst srcPre dstPre n) c
  | e => e

/-- The rename applied when `rename_keys` is set, identity otherwise. -/
def maybeRename (rn : Bool) (srcPre dstPre : String) (e : Entry) : Entry :=
  if rn then renameEntry srcPre dstPre e else e

/-- Lines 61-77: the entry loop over `source_resource.body`, producing
`(moved_entries, remaining_entries, printed rename messages)` in original
order. -/
def processBody (keys : List String) (rn : Bool) (srcPre dstPre : String) :
    List Entry → List Entry × List Entry × List String
  | [] => ([], [], [])
  | e :: rest =>
    let prev := processBody keys rn srcPre dstPre rest
    if isMovedEntry keys e then
      if rn then
        (renameEntry srcPre dstPre e :: prev.1, prev.2.1,
          ("Renamed '" ++ e.keyName.getD "" ++ "' to '" ++
            (renameEntry srcPre dstPre e).keyName.getD "" ++ "'") :: prev.2.2)
      else
        (e :: prev.1, prev.2.1, prev.2.2)
    else
      (prev.1, e :: prev.2.1, prev.2.2)

/-- The `moved_entries` list produced by the loop. -/
def movedOf (keys : List String) (rn : Bool) (srcPre dstPre : String)
    (body : List Entry) : List Entry :=
  (processBody keys rn srcPre dstPre body).1

/-- The `remaining_entries` list produced by the loop. -/
def remainingOf (keys : List String) (rn : Bool) (srcPre dstPre : String)
    (body : List Entry) : List Entry :=
  (processBody keys rn srcPre dstPre body).2.1

/-- The `ast.Junk(content="\n\n")` blank-line separator of line 93. -/
def sepEntry : Entry := .junk "\n\n"

/-- Whether lines 90-93 append the separator: the destination body is
non-empty and its last entry is not `Junk`. -/
def needsSeparator (destBody : List Entry) : Bool :=
  match destBody.getLast? with
  | some last => !last.isJunk
  | none => false

/-- Lines 90-93: append the blank-line separator when the destination body
is non-empty and does not already end with `Junk`. -/
def addSeparator (destBody : List Entry) : List Entry :=
  match destBody.getLast? with
  | some last => if last.isJunk then destBody else destBody ++ [sepEntry]
  | none => destBody

/-- Lines 88-95: when there are moved entries, extend the destination body
(after the possible separator) by the moved entries; otherwise the
destination body is untouched. -/
def appendMoved (destBody moved : List Entry) : List Entry :=
  if moved.isEmpty then destBody
  else addSeparator destBody ++ moved

/-- One language directory: `path` is the `lang_dir` produced by the glob
(ending in a path separator, so `os.path.join(lang_dir, name)` is plain
concatenation); `source`/`dest` hold the parsed entry list of the
source/destination file, or `none` when that file does not exist. -/
structure DirState where
  path : String
  source : Option (List Entry)
  dest : Option (List Entry)
deriving DecidableEq, Repr

/-- Outcome of processing one directory: the new directory state, the
printed messages, and the files read and written (by path, in order). -/
structure DirResult where
  state : DirState
  log : List String
  reads : List String
  writes : List String
deriving DecidableEq, Repr

/-- Lines 45-109: processing of one language directory.  A directory whose
source file does not exist is skipped with a diagnostic (lines 49-51);
otherwise the source is parsed and partitioned, the destination is loaded
or created empty (lines 80-85), the destination file is written only when
there are moved entries (lines 88-102), and the source file is always
rewritten with the remaining entries (lines 104-108). -/
def processDir (keys : List String) (rn : Bool) (srcPre dstPre srcName dstName : String)
    (st : DirState) : DirResult :=
  let sourceFile := st.path ++ srcName
  let destFile := st.path ++ dstName
  match st.source with
  | none =>
    { state := st
      log := ["Skipping " ++ st.path ++ ": '" ++ srcName ++ "' not found."]
      reads := []
      writes := [] }
  | some body =>
    let res := processBody keys rn srcPre dstPre body
    let moved := res.1
    let remaining := res.2.1
    let renameLog := res.2.2
    let destBody := (st.dest).getD []
    let destReads := if (st.dest).isSome then [destFile] else []
    if moved.isEmpty then
      { state := { st with source := some remaining }
        log := ["\nProcessing '" ++ sourceFile ++ "'..."] ++ renameLog ++
          ["No keys found to move in this file.",
           "Updated the source file. Operation complete for this language."]
        reads := [sourceFile] ++ destReads
        writes := [sourceFile] }
    else
      { state := { st with source := some remaining, dest := some (appendMoved destBody moved) }
        log := ["\nProcessing '" ++ sourceFile ++ "'..."] ++ renameLog ++
          ["Successfully moved " ++ toString moved.length ++ " keys to '" ++ destFile ++ "'.",
           "Updated the source file. Operation complete for this language."]
        reads := [sourceFile] ++ destReads
        writes := [destFile, sourceFile] }

/-- Python `line.strip()`: drop leading and trailing whitespace
characters. -/
def stripStr (s : String) : String :=
  String.mk (((s.data.dropWhile Char.isWhitespace).reverse.dropWhile
    Char.isWhitespace).reverse)

/-- Line 32: the key set read from the list file — each line stripped of
surrounding whitespace, blank lines dropped.  The Python set is modelled
as the list of surviving lines; only membership is ever used. -/
def keysFromLines (lines : List String) : List String :=
  (lines.map stripStr).filter (fun l => l ≠ "")

/-- The whole run of `move_and_rename_fluent_strings` (lines 6-109).
`rawKeyLines` is `none` when the strings list file does not exist; `dirs`
is the list of language directories found by the glob of line 39, in glob
order.  Returns the final directory states and the printed messages. -/
def runMigration (baseDir stringsFile srcName dstName : String) (rn : Bool)
    (rawKeyLines : Option (List String)) (dirs : List DirState) :
    List DirState × List String :=
  match rawKeyLines with
  | none =>
    (dirs, ["Error: The strings list file '" ++ stringsFile ++ "' does not exist."])
  | some lines =>
    -- lines 25-29: the Python `None` of the disabled-rename case is
    -- modelled by "" and is never read, since every use is guarded by `rn`
    let srcPre := if rn then splitextRoot srcName else ""
    let dstPre := if rn then splitextRoot dstName else ""
    let keys := keysFromLines lines
    if keys.isEmpty then (dirs, ["No keys to move. Exiting."])
    else if dirs.isEmpty then
      (dirs, ["No language directories found in '" ++ baseDir ++ "'. Exiting."])
    else
      let results := dirs.map (processDir keys rn srcPre dstPre srcName dstName)
      (results.map DirResult.state, (results.map DirResult.log).flatten)

/-! ### Helper lemmas about the entry loop -/

/-- The `moved_entries` list is exactly the moved-qualifying entries of the
source body, in order, each renamed when renaming is enabled. -/
theorem movedOf_eq (keys : List String) (rn : Bool) (srcPre dstPre : String)
    (body : List Entry) :
    movedOf keys rn srcPre dstPre body =
      (body.filter (isMovedEntry keys)).map (maybeRename rn srcPre dstPre) := by
  induction body with
  | nil => rfl
  | cons e rest ih =>
    simp only [movedOf, processBody] at ih ⊢
    cases rn <;> cases hm : isMovedEntry keys e <;>
      simp [hm, List.filter_cons, maybeRename, ih]

/-- The `remaining_entries` list is exactly the non-qualifying entries of
the source body, in order, untouched. -/
theorem remainingOf_eq (keys : List String) (rn : Bool) (srcPre dstPre : String)
    (body : List Entry) :
    remainingOf keys rn srcPre dstPre body =
      body.filter (fun e => !(isMovedEntry keys e)) := by
  induction body with
  | nil => rfl
  | cons e rest ih =>
    simp only [remainingOf, processBody] at ih ⊢
    cases rn <;> cases hm : isMovedEntry keys e <;>
      simp [hm, List.filter_cons, ih]

/-! ### Claim theorems -/

/-- Claim C1: for every key set and parsed source body, the entry loop's
moved and remaining lists form a complete and disjoint partition: together
they are a permutation of the original body's entries (each moved entry
carried over, renamed exactly when renaming is enabled), so every entry
lands in exactly one of the two lists, none duplicated or dropped; with
renaming disabled they are a permutation of the original body itself. -/
theorem C1_partition_complete_disjoint (keys : List String) (rn : Bool)
    (srcPre dstPre : String) (body : List Entry) :
    (movedOf keys rn srcPre dstPre body ++ remainingOf keys rn srcPre dstPre body).Perm
      (body.map (fun e => if isMovedEntry keys e then maybeRename rn srcPre dstPre e else e)) ∧
    (movedOf keys false srcPre dstPre body ++
      remainingOf keys false srcPre dstPre body).Perm body := by
  constructor
  · rw [movedOf_eq, remainingOf_eq]
    have h1 : (body.filter (isMovedEntry keys)).map (maybeRename rn srcPre dstPre) =
        (body.filter (isMovedEntry keys)).map
          (fun e => if isMovedEntry keys e then maybeRename rn srcPre dstPre e else e) := by
      apply List.map_congr_left
      intro a ha
      rw [List.mem_filter] at ha
      simp [ha.2]
    have h2 : body.filter (fun e => !(isMovedEntry keys e)) =
        (body.filter (fun e => !(isMovedEntry keys e))).map
          (fun e => if isMovedEntry keys e then maybeRename rn srcPre dstPre e else e) := by
      conv_lhs => rw [← List.map_id (body.filter (fun e => !(isMovedEntry keys e)))]
      apply List.map_congr_left
      intro a ha
      rw [List.mem_filter] at ha
      simp only [Bool.not_eq_true'] at ha
      simp [ha.2, id]
    rw [h1, h2, ← List.map_append]
    exact (List.filter_append_perm (isMovedEntry keys) body).map _
  · rw [movedOf_eq, remainingOf_eq]
    have hid : maybeRename false srcPre dstPre = id := by
      funext e
      simp [maybeRename]
    rw [hid, List.map_id]
    exact List.filter_append_perm (isMovedEntry keys) body

/-- Claim C2: an entry of the parsed source body is placed in the moved
list iff it is a Message or Term whose key name is a member of the key set
(carried over under the enabled-rename map); every other entry, including
Junk, is placed in the remaining list; both lists keep the source order. -/
theorem C2_partition_criterion (keys : List String) (rn : Bool)
    (srcPre dstPre : String) (body : List Entry) :
    movedOf keys rn srcPre dstPre body =
      (body.filter (isMovedEntry keys)).map (maybeRename rn srcPre dstPre) ∧
    remainingOf keys rn srcPre dstPre body =
      body.filter (fun e => !(isMovedEntry keys e)) ∧
    ∀ e : Entry, isMovedEntry keys e = true ↔ ∃ n, e.keyName = some n ∧ n ∈ keys := by
  refine ⟨movedOf_eq keys rn srcPre dstPre body, remainingOf_eq keys rn srcPre dstPre body, ?_⟩
  intro e
  cases e <;> simp [isMovedEntry, Entry.keyName, List.contains_iff_exists_mem_beq, beq_iff_eq]

/-- Restatement of `movedOf_eq` at the raw projection. -/
theorem processBody_fst_eq (keys : List String) (rn : Bool) (srcPre dstPre : String)
    (body : List Entry) :
    (processBody keys rn srcPre dstPre body).1 =
      (body.filter (isMovedEntry keys)).map (maybeRename rn srcPre dstPre) :=
  movedOf_eq keys rn srcPre dstPre body

/-- Restatement of `remainingOf_eq` at the raw projection. -/
theorem processBody_snd_eq (keys : List String) (rn : Bool) (srcPre dstPre : String)
    (body : List Entry) :
    (processBody keys rn srcPre dstPre body).2.1 =
      body.filter (fun e => !(isMovedEntry keys e)) :=
  remainingOf_eq keys rn srcPre dstPre body

/-- If the pattern never occurs in the character list, the first-occurrence
replacement leaves it unchanged. -/
theorem replaceFirstList_of_not_contains (pat dst : List Char) (s : List Char)
    (h : containsSubList pat s = false) : replaceFirstList pat dst s = s := by
  induction s with
  | nil =>
    simp only [containsSubList] at h
    simp [replaceFirstList, h]
  | cons c rest ih =>
    simp only [containsSubList, Bool.or_eq_false_iff] at h
    simp [replaceFirstList, h.1, ih h.2]

/-- If the pattern never occurs in the string, `replaceFirst` leaves it
unchanged. -/
theorem replaceFirst_of_not_containsSub (pat dst s : String)
    (h : containsSub pat s = false) : replaceFirst pat dst s = s := by
  unfold replaceFirst
  rw [replaceFirstList_of_not_contains pat.data dst.data s.data h]

/-- Renaming rewrites exactly the key of a Message or Term and nothing
else. -/
theorem renameEntry_keyName (srcPre dstPre : String) (e : Entry) :
    (renameEntry srcPre dstPre e).keyName = e.keyName.map (replaceFirst srcPre dstPre) := by
  cases e <;> rfl

/-- Claim C3: with renaming enabled, each moved entry's new key is the old
key with the first occurrence of the source-filename-derived string
replaced by the destination one (both filenames stripped of their
extension); a key not containing the source string is left unchanged; and
the concrete example common.ftl / new_component.ftl sends
common-button-label to new_component-button-label. -/
theorem C3_rename_first_occurrence :
    (∀ (keys : List String) (src dst : String) (body : List Entry),
      movedOf keys true (splitextRoot src) (splitextRoot dst) body =
        (body.filter (isMovedEntry keys)).map
          (renameEntry (splitextRoot src) (splitextRoot dst))) ∧
    (∀ (srcPre dstPre : String) (e : Entry),
      (renameEntry srcPre dstPre e).keyName =
        e.keyName.map (replaceFirst srcPre dstPre)) ∧
    (∀ (srcPre dstPre key : String),
      containsSub srcPre key = false → replaceFirst srcPre dstPre key = key) ∧
    replaceFirst (splitextRoot "common.ftl") (splitextRoot "new_component.ftl")
      "common-button-label" = "new_component-button-label" := by
  refine ⟨?_, renameEntry_keyName, replaceFirst_of_not_containsSub, by decide⟩
  intro keys src dst body
  rw [movedOf_eq]
  have hmr : maybeRename true (splitextRoot src) (splitextRoot dst) =
      renameEntry (splitextRoot src) (splitextRoot dst) := by
    funext e
    simp [maybeRename]
  rw [hmr]

/-- Claim C3 witness: the hypotheses are satisfiable at a concrete input
where the source string does not occur in the key. -/
theorem C3_rename_first_occurrence_witness :
    containsSub "zzz" "alpha-key" = false ∧
      replaceFirst "zzz" "qq" "alpha-key" = "alpha-key" :=
  ⟨by decide, C3_rename_first_occurrence.2.2.1 "zzz" "qq" "alpha-key" (by decide)⟩

/-- `addSeparator` appends the separator exactly when `needsSeparator`. -/
theorem addSeparator_eq (destBody : List Entry) :
    addSeparator destBody =
      destBody ++ (if needsSeparator destBody then [sepEntry] else []) := by
  unfold addSeparator needsSeparator
  cases h : destBody.getLast? with
  | none => simp
  | some last =>
    by_cases hj : last.isJunk = true <;> simp [hj]

/-- Claim C4: the blank-line separator is placed before the moved entries
iff the moved list is non-empty, the destination body is non-empty and its
last entry is not Junk; the moved entries are appended after the
destination's existing entries, in order and verbatim. -/
theorem C4_separator_iff (destBody moved : List Entry) :
    appendMoved destBody moved =
      (if moved = [] then destBody
       else destBody ++ (if needsSeparator destBody then [sepEntry] else []) ++ moved) ∧
    (needsSeparator destBody = true ↔
      ∃ last, destBody.getLast? = some last ∧ last.isJunk = false) := by
  constructor
  · rw [appendMoved, addSeparator_eq]
    by_cases hm : moved = []
    · simp [hm]
    · simp [hm, List.isEmpty_iff, List.append_assoc]
  · unfold needsSeparator
    cases h : destBody.getLast? with
    | none => simp
    | some last =>
      by_cases hj : last.isJunk = true <;> simp [hj]

/-- A small three-message source body used to instantiate the spec's
a/b/c scenario and the closed witnesses. -/
def demoBody : List Entry :=
  [Entry.message "a" "A", Entry.message "b" "B", Entry.message "c" "C"]

/-- Claim C5: processing never reorders: the rewritten source holds exactly
the remaining entries in their original relative order (a sublist of the
original body), the moved entries keep their original relative order (the
moved-qualifying entries form a sublist of the body), and the destination
keeps its pre-existing entries unchanged as a prefix, followed by the
optional separator and then the moved entries; in the concrete a/b/c
scenario with only b listed, the source is left with a,c and the created
destination holds exactly b. -/
theorem C5_order_and_frame (keys : List String) (rn : Bool)
    (srcPre dstPre srcName dstName : String) (st : DirState) (body : List Entry)
    (h : st.source = some body) :
    (processDir keys rn srcPre dstPre srcName dstName st).state.source =
      some (body.filter (fun e => !(isMovedEntry keys e))) ∧
    List.Sublist (body.filter (fun e => !(isMovedEntry keys e))) body ∧
    List.Sublist (body.filter (isMovedEntry keys)) body ∧
    (body.filter (isMovedEntry keys) ≠ [] →
      (processDir keys rn srcPre dstPre srcName dstName st).state.dest =
        some ((st.dest).getD [] ++
          (if needsSeparator ((st.dest).getD []) then [sepEntry] else []) ++
          (body.filter (isMovedEntry keys)).map (maybeRename rn srcPre dstPre))) ∧
    (runMigration "." "keys.txt" "common.ftl" "new_component.ftl" false (some ["b"])
        [{ path := "en/", source := some demoBody, dest := none }]).1 =
      [{ path := "en/", source := some [Entry.message "a" "A", Entry.message "c" "C"],
         dest := some [Entry.message "b" "B"] }] := by
  refine ⟨?_, List.filter_sublist body, List.filter_sublist body, ?_, by decide⟩
  · simp only [processDir, h]
    split <;> simp [processBody_snd_eq]
  · intro hne
    have hI : (processBody keys rn srcPre dstPre body).1.isEmpty = false := by
      rw [processBody_fst_eq, List.isEmpty_eq_false, ne_eq, List.map_eq_nil_iff]
      exact hne
    simp only [processDir, h, hI]
    simp [appendMoved, addSeparator_eq, hI, processBody_fst_eq, List.append_assoc, hne]

/-- Claim C5 witness: the hypothesis is satisfied at the concrete a/b/c
directory. -/
theorem C5_order_and_frame_witness :
    (processDir ["b"] false "" "" "common.ftl" "new_component.ftl"
        { path := "en/", source := some demoBody, dest := none }).state.source =
      some (demoBody.filter (fun e => !(isMovedEntry ["b"] e))) :=
  (C5_order_and_frame ["b"] false "" "" "common.ftl" "new_component.ftl"
    { path := "en/", source := some demoBody, dest := none } demoBody rfl).1

/-- Claim C6: a missing key-list file aborts the whole run with the error
message and leaves every directory state untouched, and a base directory
with no subdirectories likewise aborts the run with its message (there is
nothing to modify). -/
theorem C6_fatal_aborts (baseDir sf srcName dstName : String) (rn : Bool)
    (lines : List String) (dirs : List DirState) :
    runMigration baseDir sf srcName dstName rn none dirs =
      (dirs, ["Error: The strings list file '" ++ sf ++ "' does not exist."]) ∧
    (keysFromLines lines ≠ [] →
      runMigration baseDir sf srcName dstName rn (some lines) [] =
        ([], ["No language directories found in '" ++ baseDir ++ "'. Exiting."])) := by
  refine ⟨rfl, ?_⟩
  intro hne
  have hk : (keysFromLines lines).isEmpty = false := by
    rw [List.isEmpty_eq_false]
    exact hne
  simp [runMigration, hk]

/-- Claim C6 witness: the hypotheses hold at a concrete one-key list. -/
theorem C6_fatal_aborts_witness :
    keysFromLines ["b"] ≠ [] ∧
      runMigration "." "keys.txt" "common.ftl" "new_component.ftl" false (some ["b"]) [] =
        ([], ["No language directories found in '" ++ "." ++ "'. Exiting."]) :=
  ⟨by decide,
    (C6_fatal_aborts "." "keys.txt" "common.ftl" "new_component.ftl" false ["b"] []).2
      (by decide)⟩

/-- Claim C7: a directory whose source file is missing is left exactly as
it was — nothing read, nothing written — with only the skip diagnostic
printed, and the run processes every directory of the scan independently
of the others. -/
theorem C7_skip_missing (keys : List String) (rn : Bool)
    (srcPre dstPre srcName dstName baseDir sf : String) (st : DirState)
    (h : st.source = none) (lines : List String) (dirs : List DirState) :
    (processDir keys rn srcPre dstPre srcName dstName st).state = st ∧
    (processDir keys rn srcPre dstPre srcName dstName st).reads = [] ∧
    (processDir keys rn srcPre dstPre srcName dstName st).writes = [] ∧
    (processDir keys rn srcPre dstPre srcName dstName st).log =
      ["Skipping " ++ st.path ++ ": '" ++ srcName ++ "' not found."] ∧
    (keysFromLines lines ≠ [] → dirs ≠ [] →
      (runMigration baseDir sf srcName dstName rn (some lines) dirs).1 =
        dirs.map (fun d => (processDir (keysFromLines lines) rn
          (if rn then splitextRoot srcName else "")
          (if rn then splitextRoot dstName else "") srcName dstName d).state)) := by
  refine ⟨by simp [processDir, h], by simp [processDir, h], by simp [processDir, h],
    by simp [processDir, h], ?_⟩
  intro hk hd
  have hk' : (keysFromLines lines).isEmpty = false := by
    rw [List.isEmpty_eq_false]
    exact hk
  have hd' : dirs.isEmpty = false := by
    rw [List.isEmpty_eq_false]
    exact hd
  simp [runMigration, hk', hd', List.map_map, Function.comp]

/-- Claim C7 witness: the hypothesis holds at a concrete directory without
a source file. -/
theorem C7_skip_missing_witness :
    (processDir ["b"] false "" "" "common.ftl" "new_component.ftl"
        { path := "de/", source := none, dest := none }).state =
      { path := "de/", source := none, dest := none } :=
  (C7_skip_missing ["b"] false "" "" "common.ftl" "new_component.ftl" "." "keys.txt"
    { path := "de/", source := none, dest := none } rfl ["b"] []).1

/-- Claim C8: when the destination file is absent and the moved list is
non-empty, the created destination holds exactly the moved entries — no
separator, nothing else — and those are the qualifying source entries with
any rename applied. -/
theorem C8_create_destination (keys : List String) (rn : Bool)
    (srcPre dstPre srcName dstName dirPath : String) (body : List Entry)
    (hne : movedOf keys rn srcPre dstPre body ≠ []) :
    (processDir keys rn srcPre dstPre srcName dstName
        { path := dirPath, source := some body, dest := none }).state.dest =
      some (movedOf keys rn srcPre dstPre body) ∧
    movedOf keys rn srcPre dstPre body =
      (body.filter (isMovedEntry keys)).map (maybeRename rn srcPre dstPre) := by
  refine ⟨?_, movedOf_eq keys rn srcPre dstPre body⟩
  have hI : (processBody keys rn srcPre dstPre body).1.isEmpty = false := by
    rw [List.isEmpty_eq_false]
    exact hne
  simp [processDir, hI, appendMoved, addSeparator, movedOf, List.getLast?_nil]

/-- Claim C8 witness: the hypothesis holds at the concrete a/b/c source
with b listed. -/
theorem C8_create_destination_witness :
    movedOf ["b"] false "" "" demoBody ≠ [] ∧
      (processDir ["b"] false "" "" "common.ftl" "new_component.ftl"
          { path := "en/", source := some demoBody, dest := none }).state.dest =
        some (movedOf ["b"] false "" "" demoBody) :=
  ⟨by decide,
    (C8_create_destination ["b"] false "" "" "common.ftl" "new_component.ftl" "en/"
      demoBody (by decide)).1⟩

/-- A directory whose source body has no qualifying entry is left with its
state unchanged and the no-keys message printed. -/
theorem processDir_no_match (keys : List String) (rn : Bool)
    (srcPre dstPre srcName dstName : String) (st : DirState) (body : List Entry)
    (h : st.source = some body) (hall : ∀ e ∈ body, isMovedEntry keys e = false) :
    (processDir keys rn srcPre dstPre srcName dstName st).state = st ∧
    "No keys found to move in this file." ∈
      (processDir keys rn srcPre dstPre srcName dstName st).log := by
  have hfilter : body.filter (isMovedEntry keys) = [] := by
    rw [List.filter_eq_nil_iff]
    intro a ha
    simp [hall a ha]
  have hkeep : body.filter (fun e => !(isMovedEntry keys e)) = body := by
    rw [List.filter_eq_self]
    intro a ha
    simp [hall a ha]
  have hI : (processBody keys rn srcPre dstPre body).1.isEmpty = true := by
    rw [processBody_fst_eq, hfilter]
    rfl
  obtain ⟨p, src, dst⟩ := st
  have h' : src = some body := h
  subst h'
  constructor
  · simp [processDir, hI, processBody_snd_eq, hkeep]
  · simp [processDir, hI]

/-- Claim C9: running the directory migration a second time on the
already-migrated source is a no-op — the resulting directory state is
unchanged — and that second run prints the no-keys message, whose text
starts with the quoted "No keys found to move". -/
theorem C9_second_run_noop (keys : List String) (rn : Bool)
    (srcPre dstPre srcName dstName : String) (st : DirState) (body : List Entry)
    (h : st.source = some body) :
    (processDir keys rn srcPre dstPre srcName dstName
        (processDir keys rn srcPre dstPre srcName dstName st).state).state =
      (processDir keys rn srcPre dstPre srcName dstName st).state ∧
    "No keys found to move in this file." ∈
      (processDir keys rn srcPre dstPre srcName dstName
        (processDir keys rn srcPre dstPre srcName dstName st).state).log ∧
    "No keys found to move in this file." = "No keys found to move" ++ " in this file." := by
  have hsrc1 : (processDir keys rn srcPre dstPre srcName dstName st).state.source =
      some (body.filter (fun e => !(isMovedEntry keys e))) := by
    simp only [processDir, h]
    split <;> simp [processBody_snd_eq]
  have hall : ∀ e ∈ body.filter (fun e => !(isMovedEntry keys e)),
      isMovedEntry keys e = false := by
    intro e he
    rw [List.mem_filter] at he
    simpa using he.2
  have hmain := processDir_no_match keys rn srcPre dstPre srcName dstName _ _ hsrc1 hall
  exact ⟨hmain.1, hmain.2, by decide⟩

/-- Claim C9 witness: the hypothesis holds at the concrete a/b/c
directory. -/
theorem C9_second_run_noop_witness :
    (processDir ["b"] false "" "" "common.ftl" "new_component.ftl"
        (processDir ["b"] false "" "" "common.ftl" "new_component.ftl"
          { path := "en/", source := some demoBody, dest := none }).state).state =
      (processDir ["b"] false "" "" "common.ftl" "new_component.ftl"
        { path := "en/", source := some demoBody, dest := none }).state :=
  (C9_second_run_noop ["b"] false "" "" "common.ftl" "new_component.ftl"
    { path := "en/", source := some demoBody, dest := none } demoBody rfl).1

/-- Claim C10: in a processed directory whose moved list is empty, the
destination is left exactly as it was (absent stays absent), the only file
written is the source file, and the source is overwritten with the
remaining entries. -/
theorem C10_source_always_written (keys : List String) (rn : Bool)
    (srcPre dstPre srcName dstName : String) (st : DirState) (body : List Entry)
    (h : st.source = some body) (hm : movedOf keys rn srcPre dstPre body = []) :
    (processDir keys rn srcPre dstPre srcName dstName st).state.dest = st.dest ∧
    (processDir keys rn srcPre dstPre srcName dstName st).writes =
      [st.path ++ srcName] ∧
    (processDir keys rn srcPre dstPre srcName dstName st).state.source =
      some (body.filter (fun e => !(isMovedEntry keys e))) := by
  have hI : (processBody keys rn srcPre dstPre body).1.isEmpty = true := by
    rw [List.isEmpty_eq_true]
    exact hm
  refine ⟨?_, ?_, ?_⟩ <;> simp [processDir, h, hI, processBody_snd_eq]

/-- Claim C10 witness: the hypotheses hold at the a/b/c directory with a
key list matching nothing. -/
theorem C10_source_always_written_witness :
    movedOf ["zz"] false "" "" demoBody = [] ∧
      (processDir ["zz"] false "" "" "common.ftl" "new_component.ftl"
          { path := "en/", source := some demoBody, dest := none }).state.dest =
        ({ path := "en/", source := some demoBody, dest := none } : DirState).dest :=
  ⟨by decide,
    (C10_source_always_written ["zz"] false "" "" "common.ftl" "new_component.ftl"
      { path := "en/", source := some demoBody, dest := none } demoBody rfl (by decide)).1⟩

end MoveLoc
